import Mathlib

/-!
Shallow embedding of `mercurial-bundles/src/wirepack/mod.rs`: the wirepack
record-level decoders (`HistoryEntry::decode`, `HistoryEntry::verify`,
`DataEntry::decode`) together with the constants and helper drain operations
they use.

A byte buffer (`bytes::BytesMut` in the source) is modelled as a `List Byte`
with `Byte := Fin 256`; the in-place mutation of the buffer is modelled by
returning the remaining buffer alongside the result.
-/

deriving instance DecidableEq for Except

/-- A single byte of the buffer. -/
abbrev Byte := Fin 256

/-- `NodeHash`: a fixed 20-byte revision identifier. Modelled as the list of
its 20 bytes (its internal representation is external to the decoder). -/
abbrev NodeHash := List Byte

/-- `NULL_HASH`: the all-zero sentinel hash ("no such revision / full text"). -/
def NULL_HASH : NodeHash := List.replicate 20 0

/-- Modelled from the spec: `MPath`, the byte-string name carried by file and
directory paths, is external to this file; it is modelled as the byte string
itself, so its `len()` is the list length. -/
abbrev MPath := List Byte

/-- `RepoPath`: a polymorphic value over root, directory paths and file
paths (external type; modelled from the spec's description). -/
inductive RepoPath where
  | RootPath : RepoPath
  | DirectoryPath : MPath → RepoPath
  | FilePath : MPath → RepoPath
deriving DecidableEq, Repr

/-- `Delta` (external type, modelled from the spec): either a literal full
text or an opaque decoded delta value produced by the delta codec. -/
inductive Delta where
  | fulltext : List Byte → Delta
  | fragments : List (Nat × Nat × List Byte) → Delta
deriving DecidableEq, Repr

/-- `Kind`: what sort of wirepack this is (tree manifests or file contents). -/
inductive Kind where
  | Tree : Kind
  | File : Kind
deriving DecidableEq, Repr

/-- Decode errors (`ErrorKind::WirePackDecode` plus the propagated delta codec
error). The `format!` messages of the source carry the offending node and
path; they are modelled structurally. `deltaDecode` keeps the codec's own
error as the cause, mirroring the `?` propagation of
`delta::decode_delta(delta)?`. -/
inductive DecodeErr where
  | treeCopied : NodeHash → MPath → DecodeErr
  | invalidCopyFromPath : DecodeErr
  | deltaDecode : String → DecodeErr
deriving DecidableEq, Repr

/-- Validation errors (`ErrorKind::InvalidWirePackEntry(msg)`): a single
category; the diagnostic payloads of the four `format!` messages are
modelled structurally. -/
inductive ValidationErr where
  | copiedFromRoot : NodeHash → ValidationErr
  | copiedFromDirectory : NodeHash → MPath → ValidationErr
  | copiedFromFileWrongKind : NodeHash → MPath → Kind → ValidationErr
  | copyFromPathTooLong : NodeHash → Nat → ValidationErr
deriving DecidableEq, Repr

-- Header layout constants, as in the source.
def HISTORY_COPY_FROM_OFFSET : Nat := 20 + 20 + 20 + 20
def HISTORY_HEADER_SIZE : Nat := HISTORY_COPY_FROM_OFFSET + 2
def DATA_DELTA_OFFSET : Nat := 20 + 20
def DATA_HEADER_SIZE : Nat := DATA_DELTA_OFFSET + 8

/-- Big-endian value of a byte string (`byteorder::BigEndian` reads). -/
def read_be (bs : List Byte) : Nat :=
  bs.foldl (fun acc b => acc * 256 + b.val) 0

/-- `BigEndian::read_u16(&buf[off..off+2])`: big-endian u16 at offset `off`,
read without consuming. -/
def read_u16_at (buf : List Byte) (off : Nat) : Nat :=
  read_be ((buf.drop off).take 2)

/-- `BigEndian::read_u64(&buf[off..off+8])`: big-endian u64 at offset `off`,
read without consuming. -/
def read_u64_at (buf : List Byte) (off : Nat) : Nat :=
  read_be ((buf.drop off).take 8)

/-- `BytesExt::drain_node`: remove and return the first 20 bytes as a hash. -/
def drain_node (buf : List Byte) : NodeHash × List Byte :=
  (buf.take 20, buf.drop 20)

/-- `BytesExt::drain_u16`: remove the first 2 bytes, returning their
big-endian value. -/
def drain_u16 (buf : List Byte) : Nat × List Byte :=
  (read_be (buf.take 2), buf.drop 2)

/-- `BytesExt::drain_u64`: remove the first 8 bytes, returning their
big-endian value. -/
def drain_u64 (buf : List Byte) : Nat × List Byte :=
  (read_be (buf.take 8), buf.drop 8)

/-- Modelled from the spec: `BytesExt::drain_path(len)` followed by
`RepoPath::file(path)` — both external to this file. The `len` bytes are
split off the buffer first (so they are consumed even when parsing fails),
then validated by the external path rules, abstracted here as a caller
supplied predicate `validPath`; on success the file path carries exactly the
bytes that were split off. -/
def drain_path (validPath : List Byte → Bool) (buf : List Byte) (len : Nat) :
    Except DecodeErr MPath × List Byte :=
  let path_bytes := buf.take len
  ((if validPath path_bytes then Except.ok path_bytes
    else Except.error DecodeErr.invalidCopyFromPath),
   buf.drop len)

/-- A history revision record. -/
structure HistoryEntry where
  node : NodeHash
  p1 : NodeHash
  p2 : NodeHash
  linknode : NodeHash
  copy_from : Option RepoPath
deriving DecidableEq, Repr

/-- `HistoryEntry::decode(buf, kind)`: two-stage "not enough bytes yet"
checks, then drain four hashes, the u16 length, and the copy-from path.
The external path rules are the `validPath` parameter. The mutated buffer is
returned as the second component. -/
def HistoryEntry.decode (validPath : List Byte → Bool) (buf : List Byte)
    (kind : Kind) : Except DecodeErr (Option HistoryEntry) × List Byte :=
  if buf.length < HISTORY_HEADER_SIZE then (Except.ok none, buf)
  else
    let copy_from_len := read_u16_at buf HISTORY_COPY_FROM_OFFSET
    if buf.length < HISTORY_HEADER_SIZE + copy_from_len then (Except.ok none, buf)
    else
      let (node, buf) := drain_node buf
      let (p1, buf) := drain_node buf
      let (p2, buf) := drain_node buf
      let (linknode, buf) := drain_node buf
      let (_, buf) := drain_u16 buf
      if copy_from_len > 0 then
        let (pathRes, buf) := drain_path validPath buf copy_from_len
        match pathRes with
        | Except.error e => (Except.error e, buf)
        | Except.ok path =>
          match kind with
          | Kind.Tree =>
            (Except.error (DecodeErr.treeCopied node path), buf)
          | Kind.File =>
            (Except.ok (some ⟨node, p1, p2, linknode, some (RepoPath.FilePath path)⟩),
             buf)
      else
        (Except.ok (some ⟨node, p1, p2, linknode, none⟩), buf)

/-- `HistoryEntry::verify(kind)`: pure legality check of `copy_from` given
the pack kind. -/
def HistoryEntry.verify (e : HistoryEntry) (kind : Kind) :
    Except ValidationErr Unit :=
  match e.copy_from with
  | some path =>
    match path with
    | RepoPath.RootPath =>
      Except.error (ValidationErr.copiedFromRoot e.node)
    | RepoPath.DirectoryPath p =>
      Except.error (ValidationErr.copiedFromDirectory e.node p)
    | RepoPath.FilePath p =>
      if kind = Kind.File then
        if p.length ≤ 65535 then Except.ok ()
        else Except.error (ValidationErr.copyFromPathTooLong e.node p.length)
      else Except.error (ValidationErr.copiedFromFileWrongKind e.node p kind)
  | none => Except.ok ()

/-- A data revision record. -/
structure DataEntry where
  node : NodeHash
  delta_base : NodeHash
  delta : Delta
deriving DecidableEq, Repr

/-- `DataEntry::decode(buf)`: two-stage "not enough bytes yet" checks, then
drain two hashes, the u64 length, and the payload; the payload is wrapped as
full text when `delta_base` is the null hash, and otherwise handed to the
external delta codec `decode_delta` (the `codec` parameter), whose error is
propagated.

This version elides the `usize` overflow of the source's length guard
`buf.len() < DATA_HEADER_SIZE + delta_len` by computing in unbounded `Nat`;
`DataEntry.decode_usize` below models the `usize` arithmetic exactly and
agrees with this version whenever `DATA_HEADER_SIZE + delta_len` fits in
`usize` (`data_decode_usize_agrees`). -/
def DataEntry.decode (codec : List Byte → Except String Delta)
    (buf : List Byte) : Except DecodeErr (Option DataEntry) × List Byte :=
  if buf.length < DATA_HEADER_SIZE then (Except.ok none, buf)
  else
    let delta_len := read_u64_at buf DATA_DELTA_OFFSET
    if buf.length < DATA_HEADER_SIZE + delta_len then (Except.ok none, buf)
    else
      let (node, buf) := drain_node buf
      let (delta_base, buf) := drain_node buf
      let (_, buf) := drain_u64 buf
      let delta_bytes := buf.take delta_len
      let buf := buf.drop delta_len
      if delta_base = NULL_HASH then
        (Except.ok (some ⟨node, delta_base, Delta.fulltext delta_bytes⟩), buf)
      else
        match codec delta_bytes with
        | Except.ok d => (Except.ok (some ⟨node, delta_base, d⟩), buf)
        | Except.error e => (Except.error (DecodeErr.deltaDecode e), buf)

/-- `DataEntry::decode(buf)` with the source's `usize` arithmetic made
explicit (64-bit target): the guard computes `DATA_HEADER_SIZE + delta_len`
in `usize`, so when `48 + delta_len` reaches `2 ^ 64` the program panics
instead of returning a value — with debug overflow checks the addition
itself panics, and with release wrapping the wrapped guard
`buf.len() < (48 + delta_len) - 2 ^ 64` cannot fire (its right side is
below 48 while `buf.len() ≥ 48` here), so the later
`buf.split_to(delta_len)` panics because `delta_len` exceeds any possible
buffer length. The panic, reached in every build configuration, is
modelled as `none`; the normal return as `some`. -/
def DataEntry.decode_usize (codec : List Byte → Except String Delta)
    (buf : List Byte) :
    Option (Except DecodeErr (Option DataEntry) × List Byte) :=
  if buf.length < DATA_HEADER_SIZE then some (Except.ok none, buf)
  else
    let delta_len := read_u64_at buf DATA_DELTA_OFFSET
    if 2 ^ 64 ≤ DATA_HEADER_SIZE + delta_len then none
    else if buf.length < DATA_HEADER_SIZE + delta_len then
      some (Except.ok none, buf)
    else
      let (node, buf) := drain_node buf
      let (delta_base, buf) := drain_node buf
      let (_, buf) := drain_u64 buf
      let delta_bytes := buf.take delta_len
      let buf := buf.drop delta_len
      if delta_base = NULL_HASH then
        some (Except.ok (some ⟨node, delta_base, Delta.fulltext delta_bytes⟩),
          buf)
      else
        match codec delta_bytes with
        | Except.ok d => some (Except.ok (some ⟨node, delta_base, d⟩), buf)
        | Except.error e =>
          some (Except.error (DecodeErr.deltaDecode e), buf)

/-! ## Helper lemmas -/

theorem read_be_foldl_lt (l : List Byte) :
    ∀ acc : Nat,
      List.foldl (fun a (b : Byte) => a * 256 + b.val) acc l <
        (acc + 1) * 256 ^ l.length := by
  induction l with
  | nil => intro acc; simp
  | cons b t ih =>
    intro acc
    have h1 := ih (acc * 256 + b.val)
    have hb : (b : Byte).val < 256 := b.isLt
    have h2 : (acc * 256 + b.val + 1) * 256 ^ t.length ≤
        (acc + 1) * 256 ^ (t.length + 1) := by
      have hle : acc * 256 + b.val + 1 ≤ (acc + 1) * 256 := by omega
      calc (acc * 256 + b.val + 1) * 256 ^ t.length
          ≤ ((acc + 1) * 256) * 256 ^ t.length := Nat.mul_le_mul_right _ hle
        _ = (acc + 1) * 256 ^ (t.length + 1) := by ring
    simp only [List.foldl_cons, List.length_cons]
    exact lt_of_lt_of_le h1 h2

/-- A big-endian u16 read never exceeds 65535. -/
theorem read_u16_at_le (buf : List Byte) (off : Nat) :
    read_u16_at buf off ≤ 65535 := by
  have h := read_be_foldl_lt ((buf.drop off).take 2) 0
  have hlen : ((buf.drop off).take 2).length ≤ 2 := by
    rw [List.length_take]; omega
  have hpow : (256 : Nat) ^ ((buf.drop off).take 2).length ≤ 256 ^ 2 :=
    Nat.pow_le_pow_right (by norm_num) hlen
  unfold read_u16_at read_be
  omega

/-- The result of `HistoryEntry::decode` once both length checks pass,
as a function of the buffer contents. -/
def historyDecodeResult (validPath : List Byte → Bool) (buf : List Byte)
    (kind : Kind) : Except DecodeErr (Option HistoryEntry) :=
  let cfl := read_u16_at buf HISTORY_COPY_FROM_OFFSET
  if cfl > 0 then
    if validPath ((buf.drop HISTORY_HEADER_SIZE).take cfl) then
      match kind with
      | Kind.Tree =>
        Except.error (DecodeErr.treeCopied (buf.take 20)
          ((buf.drop HISTORY_HEADER_SIZE).take cfl))
      | Kind.File =>
        Except.ok (some ⟨buf.take 20, (buf.drop 20).take 20,
          (buf.drop 40).take 20, (buf.drop 60).take 20,
          some (RepoPath.FilePath ((buf.drop HISTORY_HEADER_SIZE).take cfl))⟩)
    else Except.error DecodeErr.invalidCopyFromPath
  else
    Except.ok (some ⟨buf.take 20, (buf.drop 20).take 20,
      (buf.drop 40).take 20, (buf.drop 60).take 20, none⟩)

/-- Characterization of `HistoryEntry.decode` when the buffer holds a
complete record: the result is `historyDecodeResult` and exactly
`HISTORY_HEADER_SIZE + copy_from_len` bytes are dropped. -/
theorem history_decode_complete (v : List Byte → Bool) (buf : List Byte)
    (kind : Kind)
    (h : HISTORY_HEADER_SIZE + read_u16_at buf HISTORY_COPY_FROM_OFFSET ≤
      buf.length) :
    HistoryEntry.decode v buf kind =
      (historyDecodeResult v buf kind,
       buf.drop (HISTORY_HEADER_SIZE + read_u16_at buf HISTORY_COPY_FROM_OFFSET)) := by
  have h1 : ¬ buf.length < HISTORY_HEADER_SIZE := by
    simp only [HISTORY_HEADER_SIZE, HISTORY_COPY_FROM_OFFSET] at *
    omega
  have h2 : ¬ buf.length <
      HISTORY_HEADER_SIZE + read_u16_at buf HISTORY_COPY_FROM_OFFSET := by
    omega
  unfold HistoryEntry.decode historyDecodeResult
  simp only [if_neg h1, if_neg h2, drain_node, drain_u16, drain_path,
    List.drop_drop]
  by_cases hc : read_u16_at buf HISTORY_COPY_FROM_OFFSET > 0
  · simp only [if_pos hc]
    by_cases hv : v ((buf.drop HISTORY_HEADER_SIZE).take
        (read_u16_at buf HISTORY_COPY_FROM_OFFSET)) = true
    · simp only [HISTORY_HEADER_SIZE, HISTORY_COPY_FROM_OFFSET] at hv ⊢
      norm_num at hv ⊢
      simp only [if_pos hv]
      cases kind <;> simp [List.drop_drop]
    · simp only [HISTORY_HEADER_SIZE, HISTORY_COPY_FROM_OFFSET] at hv ⊢
      norm_num at hv ⊢
      simp [hv, List.drop_drop]
  · simp only [if_neg hc]
    have hc0 : read_u16_at buf HISTORY_COPY_FROM_OFFSET = 0 := by omega
    simp only [HISTORY_COPY_FROM_OFFSET] at hc0
    norm_num at hc0
    simp [HISTORY_HEADER_SIZE, HISTORY_COPY_FROM_OFFSET, List.drop_drop, hc0]

/-- `HistoryEntry.decode` on a buffer shorter than a complete record: no
record yet, buffer untouched. -/
theorem history_decode_incomplete (v : List Byte → Bool) (buf : List Byte)
    (kind : Kind)
    (h : buf.length <
      HISTORY_HEADER_SIZE + read_u16_at buf HISTORY_COPY_FROM_OFFSET) :
    HistoryEntry.decode v buf kind = (Except.ok none, buf) := by
  unfold HistoryEntry.decode
  by_cases h1 : buf.length < HISTORY_HEADER_SIZE
  · rw [if_pos h1]
  · rw [if_neg h1]
    simp only [if_pos h]

/-- The result of `DataEntry::decode` once both length checks pass, as a
function of the buffer contents. -/
def dataDecodeResult (codec : List Byte → Except String Delta)
    (buf : List Byte) : Except DecodeErr (Option DataEntry) :=
  let delta_bytes :=
    (buf.drop DATA_HEADER_SIZE).take (read_u64_at buf DATA_DELTA_OFFSET)
  if (buf.drop 20).take 20 = NULL_HASH then
    Except.ok (some ⟨buf.take 20, (buf.drop 20).take 20,
      Delta.fulltext delta_bytes⟩)
  else
    match codec delta_bytes with
    | Except.ok d => Except.ok (some ⟨buf.take 20, (buf.drop 20).take 20, d⟩)
    | Except.error e => Except.error (DecodeErr.deltaDecode e)

/-- Characterization of `DataEntry.decode` when the buffer holds a complete
record: the result is `dataDecodeResult` and exactly
`DATA_HEADER_SIZE + delta_len` bytes are dropped. -/
theorem data_decode_complete (codec : List Byte → Except String Delta)
    (buf : List Byte)
    (h : DATA_HEADER_SIZE + read_u64_at buf DATA_DELTA_OFFSET ≤ buf.length) :
    DataEntry.decode codec buf =
      (dataDecodeResult codec buf,
       buf.drop (DATA_HEADER_SIZE + read_u64_at buf DATA_DELTA_OFFSET)) := by
  have h1 : ¬ buf.length < DATA_HEADER_SIZE := by
    simp only [DATA_HEADER_SIZE, DATA_DELTA_OFFSET] at *
    omega
  have h2 : ¬ buf.length <
      DATA_HEADER_SIZE + read_u64_at buf DATA_DELTA_OFFSET := by omega
  unfold DataEntry.decode dataDecodeResult
  simp only [if_neg h1, if_neg h2, drain_node, drain_u64, List.drop_drop]
  by_cases hb : (buf.drop 20).take 20 = NULL_HASH
  · simp [DATA_HEADER_SIZE, DATA_DELTA_OFFSET, hb, List.drop_drop]
  · simp only [DATA_HEADER_SIZE, DATA_DELTA_OFFSET] at hb ⊢
    norm_num at hb ⊢
    simp only [hb, if_false, List.drop_drop]
    cases codec (List.take (read_u64_at buf 40) (List.drop 48 buf)) <;> simp

/-- `DataEntry.decode` on a buffer shorter than a complete record: no record
yet, buffer untouched. -/
theorem data_decode_incomplete (codec : List Byte → Except String Delta)
    (buf : List Byte)
    (h : buf.length < DATA_HEADER_SIZE + read_u64_at buf DATA_DELTA_OFFSET) :
    DataEntry.decode codec buf = (Except.ok none, buf) := by
  unfold DataEntry.decode
  by_cases h1 : buf.length < DATA_HEADER_SIZE
  · rw [if_pos h1]
  · rw [if_neg h1]
    simp only [if_pos h]

/-- Whenever `DATA_HEADER_SIZE + delta_len` fits in `usize`, the
usize-faithful decoder returns normally and agrees with `DataEntry.decode`;
a real `BytesMut`, whose length fits in `usize`, can only satisfy the
complete-record bound `48 + delta_len ≤ buf.len()` inside this regime. -/
theorem data_decode_usize_agrees (codec : List Byte → Except String Delta)
    (buf : List Byte)
    (h : DATA_HEADER_SIZE + read_u64_at buf DATA_DELTA_OFFSET < 2 ^ 64) :
    DataEntry.decode_usize codec buf = some (DataEntry.decode codec buf) := by
  unfold DataEntry.decode_usize DataEntry.decode
  by_cases h1 : buf.length < DATA_HEADER_SIZE
  · rw [if_pos h1, if_pos h1]
  · rw [if_neg h1, if_neg h1]
    simp only [if_neg (not_le.mpr h)]
    by_cases h2 : buf.length <
        DATA_HEADER_SIZE + read_u64_at buf DATA_DELTA_OFFSET
    · simp only [if_pos h2]
    · simp only [if_neg h2, drain_node, drain_u64]
      by_cases hb : (buf.drop 20).take 20 = NULL_HASH
      · simp [hb]
      · simp only [hb, if_false]
        cases codec ((((buf.drop 20).drop 20).drop 8).take
            (read_u64_at buf DATA_DELTA_OFFSET)) <;> simp

/-! ## Claims about the history decoder -/

/-- C1 (counterexample to the claim as stated): the history header is 82
bytes, not 86 — an 82-byte buffer, which holds fewer than 86 bytes, already
decodes to a record rather than returning the "no record yet" result. -/
theorem C1_counterexample :
    (List.replicate 82 (0 : Byte)).length < 86 ∧
    (HistoryEntry.decode (fun _ => true) (List.replicate 82 (0 : Byte))
        Kind.Tree).1 ≠ Except.ok none := by decide

/-- C1 (amended): for every buffer and kind, decode returns `Ok(None)` and
leaves the buffer byte-for-byte unchanged whenever the buffer holds fewer
than 82 bytes, and likewise whenever it holds at least 82 bytes but fewer
than `82 + copy_from_len` bytes, where `copy_from_len` is the big-endian u16
read (without consuming) at offset 80. -/
theorem C1_history_needs_more_bytes (v : List Byte → Bool) (buf : List Byte)
    (kind : Kind):
    (buf.length < HISTORY_HEADER_SIZE →
      HistoryEntry.decode v buf kind = (Except.ok none, buf)) ∧
    (HISTORY_HEADER_SIZE ≤ buf.length →
      buf.length <
        HISTORY_HEADER_SIZE + read_u16_at buf HISTORY_COPY_FROM_OFFSET →
      HistoryEntry.decode v buf kind = (Except.ok none, buf)) := by
  constructor
  · intro h
    exact history_decode_incomplete v buf kind (by omega)
  · intro h1 h2
    exact history_decode_incomplete v buf kind h2

/-- C1 witness: both clauses at concrete short buffers. -/
theorem C1_witness :
    HistoryEntry.decode (fun _ => true) (List.replicate 10 (0 : Byte))
        Kind.File = (Except.ok none, List.replicate 10 (0 : Byte)) ∧
    HistoryEntry.decode (fun _ => true) (List.replicate 80 (0 : Byte) ++ [0, 5])
        Kind.File =
      (Except.ok none, List.replicate 80 (0 : Byte) ++ [0, 5]) :=
  ⟨(C1_history_needs_more_bytes (fun _ => true) (List.replicate 10 (0 : Byte))
      Kind.File).1 (by decide),
   (C1_history_needs_more_bytes (fun _ => true)
      (List.replicate 80 (0 : Byte) ++ [0, 5]) Kind.File).2 (by decide)
      (by decide)⟩

/-- C2 (counterexample to the claim as stated): on an 83-byte buffer with
`copy_from_len = 0`, decode succeeds consuming 82 bytes, not 86: one byte
remains, whereas dropping 86 bytes would leave nothing. -/
theorem C2_counterexample :
    (HistoryEntry.decode (fun _ => true) (List.replicate 82 (0 : Byte) ++ [7])
        Kind.Tree).1 =
      Except.ok (some ⟨List.replicate 20 0, List.replicate 20 0,
        List.replicate 20 0, List.replicate 20 0, none⟩) ∧
    (HistoryEntry.decode (fun _ => true) (List.replicate 82 (0 : Byte) ++ [7])
        Kind.Tree).2 ≠
      (List.replicate 82 (0 : Byte) ++ [7]).drop
        (86 + read_u16_at (List.replicate 82 (0 : Byte) ++ [7])
          HISTORY_COPY_FROM_OFFSET) := by decide

/-- C2 (amended): whenever history decode succeeds, exactly
`82 + copy_from_len` bytes are removed from the front of the buffer, and the
remaining bytes are exactly the original bytes following the consumed
record, with no loss or duplication. -/
theorem C2_exact_consumption (v : List Byte → Bool) (buf : List Byte)
    (kind : Kind) (e : HistoryEntry)
    (h : (HistoryEntry.decode v buf kind).1 = Except.ok (some e)) :
    (HistoryEntry.decode v buf kind).2 =
      buf.drop
        (HISTORY_HEADER_SIZE + read_u16_at buf HISTORY_COPY_FROM_OFFSET) ∧
    buf.take (HISTORY_HEADER_SIZE + read_u16_at buf HISTORY_COPY_FROM_OFFSET)
      ++ (HistoryEntry.decode v buf kind).2 = buf := by
  have hlen : HISTORY_HEADER_SIZE + read_u16_at buf HISTORY_COPY_FROM_OFFSET ≤
      buf.length := by
    by_contra hlt
    push_neg at hlt
    rw [history_decode_incomplete v buf kind hlt] at h
    simp at h
  rw [history_decode_complete v buf kind hlen]
  exact ⟨rfl, List.take_append_drop _ _⟩

/-- C2 witness: an 83-byte buffer with `copy_from_len = 0`; the one byte
after the record survives. -/
theorem C2_witness :
    (HistoryEntry.decode (fun _ => true) (List.replicate 82 (0 : Byte) ++ [7])
        Kind.Tree).2 =
      (List.replicate 82 (0 : Byte) ++ [7]).drop
        (HISTORY_HEADER_SIZE +
          read_u16_at (List.replicate 82 (0 : Byte) ++ [7])
            HISTORY_COPY_FROM_OFFSET) ∧
    (List.replicate 82 (0 : Byte) ++ [7]).take
        (HISTORY_HEADER_SIZE +
          read_u16_at (List.replicate 82 (0 : Byte) ++ [7])
            HISTORY_COPY_FROM_OFFSET) ++
      (HistoryEntry.decode (fun _ => true)
        (List.replicate 82 (0 : Byte) ++ [7]) Kind.Tree).2 =
      List.replicate 82 (0 : Byte) ++ [7] :=
  C2_exact_consumption (fun _ => true) (List.replicate 82 (0 : Byte) ++ [7])
    Kind.Tree
    ⟨List.replicate 20 0, List.replicate 20 0, List.replicate 20 0,
      List.replicate 20 0, none⟩ (by decide)

/-- C3 (counterexample to the claim as stated): decoding an 83-byte Tree
record with `copy_from_len = 1` fails, and the failing decode has drained
the whole record from the buffer rather than leaving it unchanged. -/
theorem C3_counterexample :
    HistoryEntry.decode (fun _ => true)
        (List.replicate 80 (0 : Byte) ++ [0, 1, 5]) Kind.Tree =
      (Except.error (DecodeErr.treeCopied (List.replicate 20 0) [5]), []) ∧
    List.replicate 80 (0 : Byte) ++ [0, 1, 5] ≠ ([] : List Byte) := by decide

/-- C3 (amended): whenever history decode returns `Err`, the buffer is not
unchanged — the full record of `82 + copy_from_len` bytes has been removed
from its front (the error is raised only after all drains). -/
theorem C3_error_consumes_record (v : List Byte → Bool) (buf : List Byte)
    (kind : Kind) (err : DecodeErr)
    (h : (HistoryEntry.decode v buf kind).1 = Except.error err) :
    (HistoryEntry.decode v buf kind).2 =
      buf.drop
        (HISTORY_HEADER_SIZE + read_u16_at buf HISTORY_COPY_FROM_OFFSET) := by
  have hlen : HISTORY_HEADER_SIZE + read_u16_at buf HISTORY_COPY_FROM_OFFSET ≤
      buf.length := by
    by_contra hlt
    push_neg at hlt
    rw [history_decode_incomplete v buf kind hlt] at h
    simp at h
  rw [history_decode_complete v buf kind hlen]

/-- C3 witness: the failing Tree decode above has dropped exactly
`82 + copy_from_len = 83` bytes. -/
theorem C3_witness :
    (HistoryEntry.decode (fun _ => true)
        (List.replicate 80 (0 : Byte) ++ [0, 1, 5]) Kind.Tree).2 =
      (List.replicate 80 (0 : Byte) ++ [0, 1, 5]).drop
        (HISTORY_HEADER_SIZE +
          read_u16_at (List.replicate 80 (0 : Byte) ++ [0, 1, 5])
            HISTORY_COPY_FROM_OFFSET) :=
  C3_error_consumes_record (fun _ => true)
    (List.replicate 80 (0 : Byte) ++ [0, 1, 5]) Kind.Tree
    (DecodeErr.treeCopied (List.replicate 20 0) [5]) (by decide)

/-- C4: on a complete history record, Tree kind with nonzero
`copy_from_len` is a decode failure (not "no record yet"), while Tree kind
with `copy_from_len = 0` decodes successfully with no `copy_from`. -/
theorem C4_tree_cannot_copy (v : List Byte → Bool) (buf : List Byte)
    (h : HISTORY_HEADER_SIZE + read_u16_at buf HISTORY_COPY_FROM_OFFSET ≤
      buf.length) :
    (0 < read_u16_at buf HISTORY_COPY_FROM_OFFSET →
      ∃ err, (HistoryEntry.decode v buf Kind.Tree).1 = Except.error err) ∧
    (read_u16_at buf HISTORY_COPY_FROM_OFFSET = 0 →
      ∃ e, (HistoryEntry.decode v buf Kind.Tree).1 = Except.ok (some e) ∧
        e.copy_from = none) := by
  rw [history_decode_complete v buf Kind.Tree h]
  constructor
  · intro hc
    by_cases hv : v ((buf.drop HISTORY_HEADER_SIZE).take
        (read_u16_at buf HISTORY_COPY_FROM_OFFSET)) = true
    · exact ⟨DecodeErr.treeCopied (buf.take 20)
        ((buf.drop HISTORY_HEADER_SIZE).take
          (read_u16_at buf HISTORY_COPY_FROM_OFFSET)),
        by simp [historyDecodeResult, hc, hv]⟩
    · rw [Bool.not_eq_true] at hv
      exact ⟨DecodeErr.invalidCopyFromPath,
        by simp [historyDecodeResult, hc, hv]⟩
  · intro hc
    refine ⟨⟨buf.take 20, (buf.drop 20).take 20, (buf.drop 40).take 20,
      (buf.drop 60).take 20, none⟩, ?_, rfl⟩
    simp [historyDecodeResult, hc]

/-- C4 witness: both clauses at concrete complete Tree records. -/
theorem C4_witness :
    (∃ err, (HistoryEntry.decode (fun _ => true)
        (List.replicate 80 (0 : Byte) ++ [0, 1, 5]) Kind.Tree).1 =
      Except.error err) ∧
    (∃ e, (HistoryEntry.decode (fun _ => true) (List.replicate 82 (0 : Byte))
        Kind.Tree).1 = Except.ok (some e) ∧ e.copy_from = none) :=
  ⟨(C4_tree_cannot_copy (fun _ => true)
      (List.replicate 80 (0 : Byte) ++ [0, 1, 5]) (by decide)).1 (by decide),
   (C4_tree_cannot_copy (fun _ => true) (List.replicate 82 (0 : Byte))
      (by decide)).2 (by decide)⟩

/-- C5: `verify` succeeds exactly when `copy_from` is absent, or the kind is
File and `copy_from` is a file path of byte length at most 65535; all other
combinations (root path, directory path, file path under Tree kind, file
path longer than 65535 bytes) fail. -/
theorem C5_verify_matrix (e : HistoryEntry) (kind : Kind) :
    e.verify kind = Except.ok () ↔
      (e.copy_from = none ∨
        ∃ p, kind = Kind.File ∧ e.copy_from = some (RepoPath.FilePath p) ∧
          p.length ≤ 65535) := by
  rcases e with ⟨n, q1, q2, ln, cf⟩
  cases cf with
  | none => simp [HistoryEntry.verify]
  | some path =>
    cases path with
    | RootPath => simp [HistoryEntry.verify]
    | DirectoryPath p => simp [HistoryEntry.verify]
    | FilePath p =>
      cases kind with
      | Tree => simp [HistoryEntry.verify]
      | File =>
        by_cases hl : p.length ≤ 65535 <;> simp [HistoryEntry.verify, hl]

/-- C9: every entry successfully produced by history decode passes `verify`
for the kind it was decoded under: its `copy_from` is either absent or a
file path of length at most 65535 produced only under File kind. -/
theorem C9_decoded_entries_verify (v : List Byte → Bool) (buf : List Byte)
    (kind : Kind) (e : HistoryEntry)
    (h : (HistoryEntry.decode v buf kind).1 = Except.ok (some e)) :
    e.verify kind = Except.ok () := by
  have hlen : HISTORY_HEADER_SIZE + read_u16_at buf HISTORY_COPY_FROM_OFFSET ≤
      buf.length := by
    by_contra hlt
    push_neg at hlt
    rw [history_decode_incomplete v buf kind hlt] at h
    simp at h
  rw [history_decode_complete v buf kind hlen] at h
  unfold historyDecodeResult at h
  by_cases hc : read_u16_at buf HISTORY_COPY_FROM_OFFSET > 0
  · simp only [if_pos hc] at h
    by_cases hv : v ((buf.drop HISTORY_HEADER_SIZE).take
        (read_u16_at buf HISTORY_COPY_FROM_OFFSET)) = true
    · simp only [hv, if_true] at h
      cases kind with
      | Tree => simp at h
      | File =>
        simp only [Except.ok.injEq, Option.some.injEq] at h
        subst h
        have hle : ((buf.drop HISTORY_HEADER_SIZE).take
            (read_u16_at buf HISTORY_COPY_FROM_OFFSET)).length ≤ 65535 := by
          rw [List.length_take]
          have := read_u16_at_le buf HISTORY_COPY_FROM_OFFSET
          omega
        simp only [HistoryEntry.verify, if_true]
        rw [if_pos hle]
    · rw [Bool.not_eq_true] at hv
      simp [hv] at h
  · simp only [if_neg hc] at h
    simp only [Except.ok.injEq, Option.some.injEq] at h
    subst h
    simp [HistoryEntry.verify]

/-- C9 witness: a decoded Tree entry from an 82-byte record verifies. -/
theorem C9_witness :
    HistoryEntry.verify
      ⟨List.replicate 20 0, List.replicate 20 0, List.replicate 20 0,
        List.replicate 20 0, none⟩ Kind.Tree = Except.ok () :=
  C9_decoded_entries_verify (fun _ => true) (List.replicate 82 (0 : Byte))
    Kind.Tree
    ⟨List.replicate 20 0, List.replicate 20 0, List.replicate 20 0,
      List.replicate 20 0, none⟩ (by decide)

/-! ## Claims about the data decoder -/

/-- C6: a complete data record whose `delta_base` is the null hash decodes,
for every choice of delta codec, to a full-text delta wrapping exactly the
`delta_len` payload bytes; the codec is never consulted (the result does not
depend on it). -/
theorem C6_null_hash_fulltext (codec : List Byte → Except String Delta)
    (buf : List Byte)
    (hlen : DATA_HEADER_SIZE + read_u64_at buf DATA_DELTA_OFFSET ≤ buf.length)
    (hbase : (buf.drop 20).take 20 = NULL_HASH) :
    DataEntry.decode codec buf =
      (Except.ok (some ⟨buf.take 20, NULL_HASH,
        Delta.fulltext ((buf.drop DATA_HEADER_SIZE).take
          (read_u64_at buf DATA_DELTA_OFFSET))⟩),
       buf.drop (DATA_HEADER_SIZE + read_u64_at buf DATA_DELTA_OFFSET)) := by
  rw [data_decode_complete codec buf hlen]
  unfold dataDecodeResult
  rw [if_pos hbase, hbase]

/-- C6 witness: a 48-byte record with null `delta_base` and empty payload,
under a codec that rejects everything. -/
theorem C6_witness :
    DataEntry.decode (fun _ => Except.error "unused")
        (List.replicate 48 (0 : Byte)) =
      (Except.ok (some ⟨(List.replicate 48 (0 : Byte)).take 20, NULL_HASH,
        Delta.fulltext (((List.replicate 48 (0 : Byte)).drop
          DATA_HEADER_SIZE).take
            (read_u64_at (List.replicate 48 (0 : Byte)) DATA_DELTA_OFFSET))⟩),
       (List.replicate 48 (0 : Byte)).drop
         (DATA_HEADER_SIZE +
           read_u64_at (List.replicate 48 (0 : Byte)) DATA_DELTA_OFFSET)) :=
  C6_null_hash_fulltext (fun _ => Except.error "unused")
    (List.replicate 48 (0 : Byte)) (by decide) (by decide)

/-- C7: on a complete data record with non-null `delta_base`, decode hands
the payload bytes to the delta codec and returns exactly what the codec
returned — the decoded delta unmodified on success, and the codec's error
preserved as the cause on failure. -/
theorem C7_codec_delegation (codec : List Byte → Except String Delta)
    (buf : List Byte)
    (hlen : DATA_HEADER_SIZE + read_u64_at buf DATA_DELTA_OFFSET ≤ buf.length)
    (hbase : (buf.drop 20).take 20 ≠ NULL_HASH) :
    DataEntry.decode codec buf =
      ((match codec ((buf.drop DATA_HEADER_SIZE).take
          (read_u64_at buf DATA_DELTA_OFFSET)) with
        | Except.ok d =>
          Except.ok (some ⟨buf.take 20, (buf.drop 20).take 20, d⟩)
        | Except.error err => Except.error (DecodeErr.deltaDecode err)),
       buf.drop (DATA_HEADER_SIZE + read_u64_at buf DATA_DELTA_OFFSET)) := by
  rw [data_decode_complete codec buf hlen]
  unfold dataDecodeResult
  rw [if_neg hbase]

/-- C7 witness: a 48-byte record whose `delta_base` starts with a nonzero
byte, under a codec that accepts the empty payload with a fixed delta. -/
theorem C7_witness :
    DataEntry.decode (fun _ => Except.ok (Delta.fulltext [9]))
        (List.replicate 20 (0 : Byte) ++ [1] ++ List.replicate 27 0) =
      ((match (fun (_ : List Byte) => Except.ok (Delta.fulltext [9]))
          (((List.replicate 20 (0 : Byte) ++ [1] ++ List.replicate 27 0).drop
            DATA_HEADER_SIZE).take
              (read_u64_at
                (List.replicate 20 (0 : Byte) ++ [1] ++ List.replicate 27 0)
                DATA_DELTA_OFFSET)) with
        | Except.ok d =>
          Except.ok (some
            ⟨(List.replicate 20 (0 : Byte) ++ [1] ++ List.replicate 27 0).take
                20,
              ((List.replicate 20 (0 : Byte) ++ [1] ++
                List.replicate 27 0).drop 20).take 20, d⟩)
        | Except.error err => Except.error (DecodeErr.deltaDecode err)),
       (List.replicate 20 (0 : Byte) ++ [1] ++ List.replicate 27 0).drop
         (DATA_HEADER_SIZE +
           read_u64_at
             (List.replicate 20 (0 : Byte) ++ [1] ++ List.replicate 27 0)
             DATA_DELTA_OFFSET)) :=
  C7_codec_delegation (fun _ => Except.ok (Delta.fulltext [9]))
    (List.replicate 20 (0 : Byte) ++ [1] ++ List.replicate 27 0)
    (by decide) (by decide)

/-- C8 (counterexample to the claim as stated): a 48-byte record whose
length field at offset 40 is `2 ^ 64 - 1` holds at least 48 but fewer than
`48 + delta_len` bytes, yet the code does not return `Ok(None)` with the
buffer untouched: the `usize` guard `buf.len() < 48 + delta_len` overflows,
and the program panics (`none`) in every build configuration. -/
theorem C8_counterexample :
    DATA_HEADER_SIZE ≤
      (List.replicate 40 (0 : Byte) ++ List.replicate 8 255).length ∧
    (List.replicate 40 (0 : Byte) ++ List.replicate 8 255).length <
      DATA_HEADER_SIZE +
        read_u64_at (List.replicate 40 (0 : Byte) ++ List.replicate 8 255)
          DATA_DELTA_OFFSET ∧
    DataEntry.decode_usize (fun _ => Except.error "unused")
        (List.replicate 40 (0 : Byte) ++ List.replicate 8 255) ≠
      some (Except.ok none,
        List.replicate 40 (0 : Byte) ++ List.replicate 8 255) := by decide

/-- C8 (amended): for every buffer, data decode returns `Ok(None)` with the
buffer byte-for-byte unchanged whenever fewer than 48 bytes are held, and
likewise whenever at least 48 but fewer than `48 + delta_len` bytes are
held — provided `48 + delta_len` does not overflow `usize`
(`48 + delta_len < 2 ^ 64`; in the overflow regime the code panics instead
of returning). Bytes are only consumed when both checks pass. -/
theorem C8_data_needs_more_bytes (codec : List Byte → Except String Delta)
    (buf : List Byte) :
    (buf.length < DATA_HEADER_SIZE →
      DataEntry.decode_usize codec buf = some (Except.ok none, buf)) ∧
    (DATA_HEADER_SIZE ≤ buf.length →
      DATA_HEADER_SIZE + read_u64_at buf DATA_DELTA_OFFSET < 2 ^ 64 →
      buf.length < DATA_HEADER_SIZE + read_u64_at buf DATA_DELTA_OFFSET →
      DataEntry.decode_usize codec buf = some (Except.ok none, buf)) := by
  constructor
  · intro h
    unfold DataEntry.decode_usize
    rw [if_pos h]
  · intro h1 ho h2
    rw [data_decode_usize_agrees codec buf ho,
      data_decode_incomplete codec buf h2]

/-- C8 witness: both clauses at concrete short buffers (length field 5 in
the second, far below the overflow regime). -/
theorem C8_witness :
    DataEntry.decode_usize (fun _ => Except.error "unused")
        (List.replicate 10 (0 : Byte)) =
      some (Except.ok none, List.replicate 10 (0 : Byte)) ∧
    DataEntry.decode_usize (fun _ => Except.error "unused")
        (List.replicate 47 (0 : Byte) ++ [5]) =
      some (Except.ok none, List.replicate 47 (0 : Byte) ++ [5]) :=
  ⟨(C8_data_needs_more_bytes (fun _ => Except.error "unused")
      (List.replicate 10 (0 : Byte))).1 (by decide),
   (C8_data_needs_more_bytes (fun _ => Except.error "unused")
      (List.replicate 47 (0 : Byte) ++ [5])).2 (by decide) (by decide)
      (by decide)⟩

/-- C10: on a complete data record with non-null `delta_base` whose payload
the codec rejects, decode fails with the codec's error, yet the full record
of `48 + delta_len` bytes has been removed from the buffer: the error path
is not atomic with respect to the buffer. -/
theorem C10_error_consumes_record (codec : List Byte → Except String Delta)
    (buf : List Byte) (err : String)
    (hlen : DATA_HEADER_SIZE + read_u64_at buf DATA_DELTA_OFFSET ≤ buf.length)
    (hbase : (buf.drop 20).take 20 ≠ NULL_HASH)
    (hcodec : codec ((buf.drop DATA_HEADER_SIZE).take
      (read_u64_at buf DATA_DELTA_OFFSET)) = Except.error err) :
    (DataEntry.decode codec buf).1 =
      Except.error (DecodeErr.deltaDecode err) ∧
    (DataEntry.decode codec buf).2 =
      buf.drop (DATA_HEADER_SIZE + read_u64_at buf DATA_DELTA_OFFSET) := by
  rw [data_decode_complete codec buf hlen]
  unfold dataDecodeResult
  rw [if_neg hbase, hcodec]
  exact ⟨rfl, rfl⟩

/-- C10 witness: a rejecting codec on a 48-byte non-null record; the whole
record is consumed. -/
theorem C10_witness :
    (DataEntry.decode (fun _ => Except.error "bad")
        (List.replicate 20 (0 : Byte) ++ [1] ++ List.replicate 27 0)).1 =
      Except.error (DecodeErr.deltaDecode "bad") ∧
    (DataEntry.decode (fun _ => Except.error "bad")
        (List.replicate 20 (0 : Byte) ++ [1] ++ List.replicate 27 0)).2 =
      (List.replicate 20 (0 : Byte) ++ [1] ++ List.replicate 27 0).drop
        (DATA_HEADER_SIZE +
          read_u64_at (List.replicate 20 (0 : Byte) ++ [1] ++
            List.replicate 27 0) DATA_DELTA_OFFSET) :=
  C10_error_consumes_record (fun _ => Except.error "bad")
    (List.replicate 20 (0 : Byte) ++ [1] ++ List.replicate 27 0) "bad"
    (by decide) (by decide) (by decide)
